import Mathlib

/-! dcrlibwallet: wallet and account state management

A shallow embedding of `wallet.go` and `accounts.go`.

* Go methods become functions that take the receiver and a `World` and return the
  result together with the receiver and the world they leave behind.
* The wallet engine, the wallet loader, the store and the file system are external
  collaborators.  Every call the Go code makes to one of them appends an `Event` to
  `World.trace`; what the collaborator answers is read from an `Env`, whose
  functions see the whole history of calls (the call being answered is its last
  entry), so an answer may depend on anything that happened before.
* Byte slices handed in by a caller live in `World.mem`; a slice is the address of
  its backing buffer, and an address outside the memory is a nil slice.
* A deferred function runs after the body on every way out of it, panics included.
-/

namespace Dcrlibwallet

/-- Address of a byte buffer in `World.mem`. -/
abbrev Addr := Nat

/-- Identity of an open engine instance (a non-nil `*wallet.Wallet`). -/
abbrev Handle := Nat

/-- Error values.  The named constants (`ErrExist`, ...) are the arguments the source
gives to `errors.New`; `text` is an error made from a string literal; `external` is an
error produced by a collaborator. -/
inductive Err where
  | ErrEmptySeed
  | ErrWalletNotLoaded
  | ErrInvalidPassphrase
  | ErrNotExist
  | ErrExist
  | ErrSyncAlreadyInProgress
  | stormErrNotFound
  | text (msg : String)
  | external (code : Nat)
  deriving DecidableEq, Repr

/-- How a Go call ends: it returns a value, or it panics (here: a method of the engine
is called through a nil `lw.wallet`). -/
inductive Outcome (α : Type) where
  | ret (a : α)
  | panic
  deriving DecidableEq, Repr

/-- The fields of `LibWallet` that `wallet.go` and `accounts.go` read or write.
`wallet` is the engine handle (`nil` is `none`), `walletLoader` names the loader. -/
structure LibWallet where
  WalletID : Int
  WalletName : String
  WalletDataDir : String
  DefaultAccount : Int
  SpendingPassphraseType : Int
  DiscoveredAccounts : Bool
  wallet : Option Handle
  walletLoader : Nat
  deriving DecidableEq, Repr

/-- One entry of `AccountsResult.Accounts` as the engine reports it. -/
structure AccountResult where
  AccountNumber : Nat
  AccountName : String
  TotalBalance : Int
  LastUsedExternalIndex : Nat
  LastUsedInternalIndex : Nat
  ImportedKeyCount : Nat
  deriving DecidableEq, Repr

/-- Answer of the engine to `Accounts()`. -/
structure AccountsResult where
  Accounts : List AccountResult
  CurrentBlockHash : List Nat
  CurrentBlockHeight : Int
  deriving DecidableEq, Repr

/-- Answer of the engine to `CalculateAccountBalance`. -/
structure Balances where
  Total : Int
  Spendable : Int
  ImmatureCoinbaseRewards : Int
  ImmatureStakeGeneration : Int
  LockedByTickets : Int
  VotingAuthority : Int
  Unconfirmed : Int
  deriving DecidableEq, Repr

/-- The `Balance` value built by `GetAccountBalance`. -/
structure Balance where
  Total : Int
  Spendable : Int
  ImmatureReward : Int
  ImmatureStakeGeneration : Int
  LockedByTickets : Int
  VotingAuthority : Int
  UnConfirmed : Int
  deriving DecidableEq, Repr

/-- The `Account` summary built by `GetAccountsRaw`. -/
structure Account where
  Number : Int
  Name : String
  TotalBalance : Int
  Balance : Balance
  ExternalKeyCount : Int
  InternalKeyCount : Int
  ImportedKeyCount : Int
  deriving DecidableEq, Repr

/-- The `Accounts` collection returned by `GetAccountsRaw`. -/
structure Accounts where
  Count : Int
  CurrentBlockHash : List Nat
  CurrentBlockHeight : Int
  Acc : List Account
  deriving DecidableEq, Repr

/-- A call made to a collaborator, or a channel operation, in the order it happens. -/
inductive Event where
  | LoadedWallet (loader : Nat)
  | CreateNewWallet (loader : Nat) (pubPass privPass seed : List Nat)
  | OpenExistingWallet (loader : Nat) (pubPass : List Nat)
  | UnloadWallet (loader : Nat)
  | Unlock (w : Handle) (passphrase : List Nat) (relock : Bool)
  | Lock (w : Handle)
  | NextAccount (w : Handle) (name : String)
  | AccountName (w : Handle) (account : Nat)
  | Accounts (w : Handle)
  | CalculateAccountBalance (w : Handle) (account : Nat) (confirms : Int)
  | ChangePrivatePassphrase (w : Handle) (old new : List Nat)
  | ChangePublicPassphrase (w : Handle) (old new : List Nat)
  | One (fieldName value : String)
  | Save (record : LibWallet)
  | DeleteStruct (record : LibWallet)
  | Shutdown (walletID : Int)
  | contextWithShutdownCancel (walletID : Int)
  | RemoveAll (path : String)
  | DecodeUserInput (input : String)
  | chanMake
  | chanSend
  deriving DecidableEq, Repr

/-- The state outside the Go objects: the calls made so far, the byte buffers owned by
callers, and the records held by the store. -/
structure World where
  trace : List Event
  mem : List (List Nat)
  db : List LibWallet
  deriving DecidableEq, Repr

/-- Behaviour of everything the two files call but do not define.  Each answer is a
function of the history of calls, whose last entry is the call being answered.

* `translateError`, `InsecurePubPassphrase`: declared elsewhere, taken as given.
* `errOf`: the `error` a call returns (`none` is `nil`).
* `scribble hist a i b`: the byte the callee leaves at index `i` of the buffer at
  address `a` that was passed to it, where it found the byte `b`.
* `Shutdown hist lw`: the receiver as `lw.Shutdown()` leaves it.
* the loader returns a wallet exactly when it reports success. -/
structure Env where
  translateError : Err → Err
  InsecurePubPassphrase : List Nat
  errOf : List Event → Option Err
  scribble : List Event → Addr → Nat → Nat → Nat
  loadedWallet : List Event → Option Handle
  newWallet : List Event → Except Err Handle
  nextAccount : List Event → Nat × Option Err
  accountName : List Event → String × Option Err
  accounts : List Event → Except Err AccountsResult
  balances : List Event → Except Err Balances
  decodeSeed : List Event → Except Err (List Nat)
  Shutdown : List Event → LibWallet → LibWallet

/-! ## Memory and calls -/

/-- Record a call. -/
def World.call (s : World) (ev : Event) : World :=
  { s with trace := s.trace ++ [ev] }

/-- Contents of the buffer at `a`; nothing for a nil slice. -/
def World.buf (s : World) (a : Addr) : List Nat :=
  s.mem.getD a []

/-- What a callee leaves in a buffer of address `a` that held `bytes`. -/
def scribbled (env : Env) (hist : List Event) (a : Addr) (bytes : List Nat) : List Nat :=
  List.zipWith (env.scribble hist a) (List.range bytes.length) bytes

/-- The callee of the last recorded call writes what it likes into the buffer at `a`
(it cannot change its length). -/
def World.written (env : Env) (s : World) (a : Addr) : World :=
  { s with mem := s.mem.set a (scribbled env s.trace a (s.buf a)) }

/-- The loop `for i := range p { p[i] = 0 }` on the buffer at `a`. -/
def World.zeroed (s : World) (a : Addr) : World :=
  { s with mem := s.mem.set a ((s.buf a).map fun _ => 0) }

/-- Value of a local slice variable: the buffer the caller passed, or a buffer the
function allocated itself with `[]byte(...)`, which nobody else can reach. -/
inductive Slice where
  | caller (a : Addr)
  | fresh (bytes : List Nat)
  deriving DecidableEq, Repr

/-- Bytes a slice holds. -/
def Slice.bytes (s : World) : Slice → List Nat
  | .caller a => s.buf a
  | .fresh bs => bs

/-- Zeroing loop on a local slice variable. -/
def Slice.zeroed (s : World) : Slice → World
  | .caller a => s.zeroed a
  | .fresh _ => s

/-- The callee of the last recorded call writes into a slice passed to it. -/
def Slice.written (env : Env) (s : World) : Slice → World
  | .caller a => s.written env a
  | .fresh _ => s

/-- All bytes of the buffer at `a` are zero. -/
def World.allZero (s : World) (a : Addr) : Prop :=
  ∀ b ∈ s.buf a, b = 0

instance (s : World) (a : Addr) : Decidable (s.allZero a) := by
  unfold World.allZero; exact inferInstance

/-! ## Integer conversions -/

/-- Conversion to `int32`: wraps around. -/
def int32 (z : Int) : Int := (z + 2 ^ 31) % 2 ^ 32 - 2 ^ 31

/-- Conversion to `uint32`: wraps around. -/
def uint32 (z : Int) : Nat := (z % 2 ^ 32).toNat

/-- Conversion to `int64`: wraps around. -/
def int64 (z : Int) : Int := (z + 2 ^ 63) % 2 ^ 64 - 2 ^ 63

/-- Go `strings.HasPrefix(s, pre)`.  Strings are compared character by character; for
the ASCII literal the source passes this is the same as comparing bytes. -/
def HasPrefix (s pre : String) : Bool :=
  pre.data.isPrefixOf s.data

/-! ## Collaborators -/

/-- Loader `LoadedWallet()`: the loaded wallet, `none` when `ok` is false. -/
def Loader.LoadedWallet (env : Env) (loader : Nat) (s : World) : Option Handle × World :=
  let s1 := s.call (.LoadedWallet loader)
  (env.loadedWallet s1.trace, s1)

/-- Loader `CreateNewWallet(pubPass, privPass, seed)`. -/
def Loader.CreateNewWallet (env : Env) (loader : Nat) (pubPass privPass seed : List Nat)
    (s : World) : Except Err Handle × World :=
  let s1 := s.call (.CreateNewWallet loader pubPass privPass seed)
  (env.newWallet s1.trace, s1)

/-- Loader `OpenExistingWallet(pubPass)`; the callee may write into `pubPass`. -/
def Loader.OpenExistingWallet (env : Env) (loader : Nat) (pubPass : Addr) (s : World) :
    Except Err Handle × World :=
  let s1 := (s.call (.OpenExistingWallet loader (s.buf pubPass))).written env pubPass
  (env.newWallet s1.trace, s1)

/-- Loader `UnloadWallet()`. -/
def Loader.UnloadWallet (env : Env) (loader : Nat) (s : World) : Option Err × World :=
  let s1 := s.call (.UnloadWallet loader)
  (env.errOf s1.trace, s1)

/-- Engine `Unlock(passphrase, lock)`; `relock` tells whether a channel was passed
(the engine gets its receiving end only).  The callee may write into `passphrase`. -/
def Engine.Unlock (env : Env) (w : Handle) (passphrase : Addr) (relock : Bool) (s : World) :
    Option Err × World :=
  let s1 := (s.call (.Unlock w (s.buf passphrase) relock)).written env passphrase
  (env.errOf s1.trace, s1)

/-- Engine `Lock()`. -/
def Engine.Lock (w : Handle) (s : World) : World :=
  s.call (.Lock w)

/-- Engine `NextAccount(ctx, name)`. -/
def Engine.NextAccount (env : Env) (w : Handle) (name : String) (s : World) :
    (Nat × Option Err) × World :=
  let s1 := s.call (.NextAccount w name)
  (env.nextAccount s1.trace, s1)

/-- Engine `AccountName(account)`. -/
def Engine.AccountName (env : Env) (w : Handle) (account : Nat) (s : World) :
    (String × Option Err) × World :=
  let s1 := s.call (.AccountName w account)
  (env.accountName s1.trace, s1)

/-- Engine `Accounts()`. -/
def Engine.Accounts (env : Env) (w : Handle) (s : World) : Except Err AccountsResult × World :=
  let s1 := s.call (.Accounts w)
  (env.accounts s1.trace, s1)

/-- Engine `CalculateAccountBalance(account, confirms)`. -/
def Engine.CalculateAccountBalance (env : Env) (w : Handle) (account : Nat) (confirms : Int)
    (s : World) : Except Err Balances × World :=
  let s1 := s.call (.CalculateAccountBalance w account confirms)
  (env.balances s1.trace, s1)

/-- Engine `ChangePrivatePassphrase(old, new)`; the callee may write into both. -/
def Engine.ChangePrivatePassphrase (env : Env) (w : Handle) (old new : Addr) (s : World) :
    Option Err × World :=
  let s1 := ((s.call (.ChangePrivatePassphrase w (s.buf old) (s.buf new))).written env
    old).written env new
  (env.errOf s1.trace, s1)

/-- Engine `ChangePublicPassphrase(old, new)`; the callee may write into both. -/
def Engine.ChangePublicPassphrase (env : Env) (w : Handle) (old new : Slice) (s : World) :
    Option Err × World :=
  let s0 := s.call (.ChangePublicPassphrase w (old.bytes s) (new.bytes s))
  let s1 := new.written env (old.written env s0)
  (env.errOf s1.trace, s1)

/-- Value of the field of a stored record that a lookup names; `WalletName` is the only
field the source looks up. -/
def LibWallet.field (r : LibWallet) (fieldName : String) : Option String :=
  if fieldName = "WalletName" then some r.WalletName else none

/-- Store `One(fieldName, value, &to)`: an error of the store itself, else the first
record whose field has the value, else `storm.ErrNotFound`.  The store keeps no index
entry for an empty field, so a lookup of the empty string finds nothing even when a
record with an empty name is stored. -/
def DB.One (env : Env) (fieldName value : String) (s : World) : Except Err LibWallet × World :=
  let s1 := s.call (.One fieldName value)
  match env.errOf s1.trace with
  | some err => (.error err, s1)
  | none =>
    if value = "" then (.error .stormErrNotFound, s1)
    else
      match s1.db.find? (fun r => r.field fieldName == some value) with
      | some r => (.ok r, s1)
      | none => (.error .stormErrNotFound, s1)

/-- Store `Save(w)`: an error of the store, else the record replaces the one with the
same id. -/
def DB.Save (env : Env) (w : LibWallet) (s : World) : Option Err × World :=
  let s1 := s.call (.Save w)
  match env.errOf s1.trace with
  | some err => (some err, s1)
  | none => (none, { s1 with db := w :: s1.db.filter (fun r => r.WalletID != w.WalletID) })

/-- Store `DeleteStruct(w)`: an error of the store, `storm.ErrNotFound` when no record
has the id, else the record is removed. -/
def DB.DeleteStruct (env : Env) (w : LibWallet) (s : World) : Option Err × World :=
  let s1 := s.call (.DeleteStruct w)
  match env.errOf s1.trace with
  | some err => (some err, s1)
  | none =>
    if s1.db.any (fun r => r.WalletID == w.WalletID) then
      (none, { s1 with db := s1.db.filter (fun r => r.WalletID != w.WalletID) })
    else (some .stormErrNotFound, s1)

/-- File system `os.RemoveAll(path)`. -/
def os_RemoveAll (env : Env) (path : String) (s : World) : Option Err × World :=
  let s1 := s.call (.RemoveAll path)
  (env.errOf s1.trace, s1)

/-- The call `lw.Shutdown()`.  The method is defined outside the two files: the call is
recorded as the shutdown signal and its effect on the receiver is left to `env`. -/
def LibWallet.Shutdown (env : Env) (lw : LibWallet) (s : World) : LibWallet × World :=
  let s1 := s.call (.Shutdown lw.WalletID)
  (env.Shutdown s1.trace lw, s1)

/-! ## wallet.go -/

/-- Go `CreateWallet(passphrase, seedMnemonic)`.  `passphrase` is given as its bytes. -/
def LibWallet.CreateWallet (env : Env) (lw : LibWallet) (passphrase : List Nat)
    (seedMnemonic : String) (s : World) : Option Err × LibWallet × World :=
  if seedMnemonic.length = 0 then (some .ErrEmptySeed, lw, s)
  else
    let pubPass := env.InsecurePubPassphrase
    let privPass := passphrase
    let s1 := s.call (.DecodeUserInput seedMnemonic)
    match env.decodeSeed s1.trace with
    | .error err => (some err, lw, s1)
    | .ok seed =>
      match Loader.CreateNewWallet env lw.walletLoader pubPass privPass seed s1 with
      | (.error err, s2) => (some err, lw, s2)
      | (.ok w, s2) => (none, { lw with wallet := some w }, s2)

/-- Go `OpenWallet(pubPass)`. -/
def LibWallet.OpenWallet (env : Env) (lw : LibWallet) (pubPass : Addr) (s : World) :
    Option Err × LibWallet × World :=
  match Loader.OpenExistingWallet env lw.walletLoader pubPass s with
  | (.error err, s1) => (some (env.translateError err), lw, s1)
  | (.ok w, s1) => (none, { lw with wallet := some w }, s1)

/-- Go `WalletOpened()`: `lw.wallet != nil`. -/
def LibWallet.WalletOpened (lw : LibWallet) : Bool :=
  lw.wallet != none

/-- Go `UnlockWallet(privPass)`.  The zeroing function is deferred after the check of the
loader, so the early return does not run it. -/
def LibWallet.UnlockWallet (env : Env) (lw : LibWallet) (privPass : Addr) (s : World) :
    Option Err × World :=
  match Loader.LoadedWallet env lw.walletLoader s with
  | (none, s1) => (some (.text "wallet has not been loaded"), s1)
  | (some loadedWallet, s1) =>
    let body : Option Err × World :=
      match Engine.Unlock env loadedWallet privPass false s1 with
      | (some err, s2) => (some (env.translateError err), s2)
      | (none, s2) => (none, s2)
    (body.1, body.2.zeroed privPass)

/-- Go `ChangePrivatePassphrase(oldPass, newPass)`: the deferred function zeroes both. -/
def LibWallet.ChangePrivatePassphrase (env : Env) (lw : LibWallet) (oldPass newPass : Addr)
    (s : World) : Outcome (Option Err) × World :=
  let body : Outcome (Option Err) × World :=
    match lw.wallet with
    | none => (.panic, s)
    | some w =>
      match Engine.ChangePrivatePassphrase env w oldPass newPass s with
      | (some err, s1) => (.ret (some (env.translateError err)), s1)
      | (none, s1) => (.ret none, s1)
  (body.1, (body.2.zeroed oldPass).zeroed newPass)

/-- Go `ChangePublicPassphrase(oldPass, newPass)`.  The deferred closure zeroes whatever the
variables `oldPass` and `newPass` refer to when it runs, that is after an empty one
has been replaced by a fresh copy of the default public passphrase. -/
def LibWallet.ChangePublicPassphrase (env : Env) (lw : LibWallet) (oldPass newPass : Addr)
    (s : World) : Outcome (Option Err) × World :=
  let oldPass1 : Slice :=
    if (s.buf oldPass).length = 0 then .fresh env.InsecurePubPassphrase else .caller oldPass
  let newPass1 : Slice :=
    if (s.buf newPass).length = 0 then .fresh env.InsecurePubPassphrase else .caller newPass
  let body : Outcome (Option Err) × World :=
    match lw.wallet with
    | none => (.panic, s)
    | some w =>
      match Engine.ChangePublicPassphrase env w oldPass1 newPass1 s with
      | (some err, s1) => (.ret (some (env.translateError err)), s1)
      | (none, s1) => (.ret none, s1)
  (body.1, newPass1.zeroed (oldPass1.zeroed body.2))

/-- Go `CloseWallet()`: asks the loader to unload and returns its error. -/
def LibWallet.CloseWallet (env : Env) (lw : LibWallet) (s : World) :
    Option Err × LibWallet × World :=
  match Loader.UnloadWallet env lw.walletLoader s with
  | (err, s1) => (err, lw, s1)

/-- Go `DeleteWallet(privatePassphrase)` of one wallet: the zeroing function is deferred
first, so it runs on every return. -/
def LibWallet.DeleteWallet (env : Env) (lw : LibWallet) (privatePassphrase : Addr) (s : World) :
    Option Err × LibWallet × World :=
  let body : Option Err × LibWallet × World :=
    match Loader.LoadedWallet env lw.walletLoader s with
    | (none, s1) => (some .ErrWalletNotLoaded, lw, s1)
    | (some wallet, s1) =>
      match Engine.Unlock env wallet privatePassphrase false s1 with
      | (some err, s2) => (some (env.translateError err), lw, s2)
      | (none, s2) =>
        let s3 := Engine.Lock wallet s2
        match lw.Shutdown env s3 with
        | (lw4, s4) =>
          match os_RemoveAll env lw4.WalletDataDir s4 with
          | (err, s5) => (err, lw4, s5)
  (body.1, body.2.1, body.2.2.zeroed privatePassphrase)

/-- The registry: `wallets` maps an id to its wallet, `activeSyncData` is nil (`none`)
unless a sync is in progress.  The map holds pointers; here every id has a wallet of
its own, so a write through the pointer is a write to the entry of that id. -/
structure MultiWallet where
  wallets : Int → Option LibWallet
  activeSyncData : Option Nat

/-- A write through the pointer stored under `walletID`. -/
def MultiWallet.store (mw : MultiWallet) (walletID : Int) (w : LibWallet) : MultiWallet :=
  { mw with wallets := fun i => if i = walletID then some w else mw.wallets i }

/-- Go `delete(mw.wallets, walletID)`. -/
def MultiWallet.remove (mw : MultiWallet) (walletID : Int) : MultiWallet :=
  { mw with wallets := fun i => if i = walletID then none else mw.wallets i }

/-- Go `RenameWallet(walletID, newName)`. -/
def MultiWallet.RenameWallet (env : Env) (mw : MultiWallet) (walletID : Int) (newName : String)
    (s : World) : Option Err × MultiWallet × World :=
  if HasPrefix newName "wallet-" then
    (some (.text "\x27wallet-\x27 is a reserved prefix"), mw, s)
  else
    match mw.wallets walletID with
    | some w =>
      match DB.One env "WalletName" newName s with
      | (.ok _, s1) => (some .ErrExist, mw, s1)
      | (.error err, s1) =>
        if err ≠ .stormErrNotFound then (some (env.translateError err), mw, s1)
        else
          let w1 := { w with WalletName := newName }
          match DB.Save env w1 s1 with
          | (err2, s2) => (err2, mw.store walletID w1, s2)
    | none => (some .ErrNotExist, mw, s)

/-- Go `DeleteWallet(walletID, privPass)` of the registry. -/
def MultiWallet.DeleteWallet (env : Env) (mw : MultiWallet) (walletID : Int) (privPass : Addr)
    (s : World) : Option Err × MultiWallet × World :=
  match mw.activeSyncData with
  | some _ => (some .ErrSyncAlreadyInProgress, mw, s)
  | none =>
    match mw.wallets walletID with
    | some w =>
      match w.DeleteWallet env privPass s with
      | (some err, w1, s1) => (some (env.translateError err), mw.store walletID w1, s1)
      | (none, w1, s1) =>
        match DB.DeleteStruct env w1 s1 with
        | (some err, s2) => (some (env.translateError err), mw.store walletID w1, s2)
        | (none, s2) => (none, (mw.store walletID w1).remove walletID, s2)
    | none => (some .ErrNotExist, mw, s)

/-! ## accounts.go -/

/-- The `Balance` literal returned by `GetAccountBalance`. -/
def mkBalance (balance : Balances) : Balance :=
  { Total := int64 balance.Total
    Spendable := int64 balance.Spendable
    ImmatureReward := int64 balance.ImmatureCoinbaseRewards
    ImmatureStakeGeneration := int64 balance.ImmatureStakeGeneration
    LockedByTickets := int64 balance.LockedByTickets
    VotingAuthority := int64 balance.VotingAuthority
    UnConfirmed := int64 balance.Unconfirmed }

/-- Go `GetAccountBalance(accountNumber, requiredConfirmations)`. -/
def LibWallet.GetAccountBalance (env : Env) (lw : LibWallet) (accountNumber : Int)
    (requiredConfirmations : Int) (s : World) : Outcome (Except Err Balance) × World :=
  match lw.wallet with
  | none => (.panic, s)
  | some w =>
    match Engine.CalculateAccountBalance env w (uint32 accountNumber) requiredConfirmations s with
    | (.error err, s1) => (.ret (.error err), s1)
    | (.ok balance, s1) => (.ret (.ok (mkBalance balance)), s1)

/-- The `Account` literal in the loop of `GetAccountsRaw`. -/
def mkAccount (account : AccountResult) (balance : Balance) : Account :=
  { Number := int32 account.AccountNumber
    Name := account.AccountName
    TotalBalance := int64 account.TotalBalance
    Balance := balance
    ExternalKeyCount := int32 ((account.LastUsedExternalIndex + 20) % 2 ^ 32 : Nat)
    InternalKeyCount := int32 ((account.LastUsedInternalIndex + 20) % 2 ^ 32 : Nat)
    ImportedKeyCount := int32 account.ImportedKeyCount }

/-- The loop of `GetAccountsRaw` over the accounts still to visit; `accounts` holds the
summaries filled in so far.  It stops at the first balance that fails. -/
def LibWallet.GetAccountsRaw.loop (env : Env) (lw : LibWallet) (requiredConfirmations : Int) :
    List AccountResult → List Account → World → Outcome (Except Err (List Account)) × World
  | [], accounts, s => (.ret (.ok accounts), s)
  | account :: rest, accounts, s =>
    match lw.GetAccountBalance env (int32 account.AccountNumber) requiredConfirmations s with
    | (.panic, s1) => (.panic, s1)
    | (.ret (.error err), s1) => (.ret (.error err), s1)
    | (.ret (.ok balance), s1) =>
      LibWallet.GetAccountsRaw.loop env lw requiredConfirmations rest
        (accounts ++ [mkAccount account balance]) s1

/-- Go `GetAccountsRaw(requiredConfirmations)`. -/
def LibWallet.GetAccountsRaw (env : Env) (lw : LibWallet) (requiredConfirmations : Int)
    (s : World) : Outcome (Except Err Accounts) × World :=
  match lw.wallet with
  | none => (.panic, s)
  | some w =>
    match Engine.Accounts env w s with
    | (.error err, s1) => (.ret (.error err), s1)
    | (.ok resp, s1) =>
      match LibWallet.GetAccountsRaw.loop env lw requiredConfirmations resp.Accounts [] s1 with
      | (.panic, s2) => (.panic, s2)
      | (.ret (.error err), s2) => (.ret (.error err), s2)
      | (.ret (.ok accounts), s2) =>
        (.ret (.ok {
          Count := resp.Accounts.length
          CurrentBlockHash := resp.CurrentBlockHash
          CurrentBlockHeight := resp.CurrentBlockHeight
          Acc := accounts }), s2)

/-- Go `NextAccountRaw(accountName, privPass)`.  The deferred function zeroes `privPass`
and sends on the channel made at the start; it runs on every way out. -/
def LibWallet.NextAccountRaw (env : Env) (lw : LibWallet) (accountName : String)
    (privPass : Addr) (s : World) : Outcome (Nat × Option Err) × World :=
  let s0 := s.call .chanMake
  let body : Outcome (Nat × Option Err) × World :=
    match lw.wallet with
    | none => (.panic, s0)
    | some w =>
      match Engine.Unlock env w privPass true s0 with
      | (some _, s1) => (.ret (0, some .ErrInvalidPassphrase), s1)
      | (none, s1) =>
        let s2 := s1.call (.contextWithShutdownCancel lw.WalletID)
        match Engine.NextAccount env w accountName s2 with
        | (r, s3) => (.ret r, s3)
  (body.1, (body.2.zeroed privPass).call .chanSend)

/-- Go `NextAccount(accountName, privPass)`. -/
def LibWallet.NextAccount (env : Env) (lw : LibWallet) (accountName : String) (privPass : Addr)
    (s : World) : Outcome (Int × Option Err) × World :=
  match lw.NextAccountRaw env accountName privPass s with
  | (.panic, s1) => (.panic, s1)
  | (.ret (_, some err), s1) => (.ret (-1, some err), s1)
  | (.ret (accountNumber, none), s1) => (.ret (int32 accountNumber, none), s1)

/-- Go `AccountNameRaw(accountNumber)`. -/
def LibWallet.AccountNameRaw (env : Env) (lw : LibWallet) (accountNumber : Nat) (s : World) :
    Outcome (String × Option Err) × World :=
  match lw.wallet with
  | none => (.panic, s)
  | some w =>
    match Engine.AccountName env w accountNumber s with
    | (r, s1) => (.ret r, s1)

/-- Go `SetDefaultAccount(walletID, accountNumber)`. -/
def MultiWallet.SetDefaultAccount (env : Env) (mw : MultiWallet) (walletID : Int)
    (accountNumber : Int) (s : World) : Outcome (Option Err) × MultiWallet × World :=
  match mw.wallets walletID with
  | none => (.ret (some .ErrNotExist), mw, s)
  | some w =>
    match w.AccountNameRaw env (uint32 accountNumber) s with
    | (.panic, s1) => (.panic, mw, s1)
    | (.ret (_, some err), s1) => (.ret (some (env.translateError err)), mw, s1)
    | (.ret (_, none), s1) =>
      let w1 := { w with DefaultAccount := accountNumber }
      match DB.Save env w1 s1 with
      | (some err, s2) => (.ret (some (env.translateError err)), mw.store walletID w1, s2)
      | (none, s2) => (.ret none, mw.store walletID w1, s2)

/-- The balance query `GetAccountsRaw` makes for one account of the engine. -/
def balanceQuery (w : Handle) (confirms : Int) (a : AccountResult) : Event :=
  .CalculateAccountBalance w (uint32 (int32 a.AccountNumber)) confirms

/-! ## Sample collaborators -/

/-- Collaborators that never fail: wallet 1 is loaded, nothing is written into the
buffers passed, three accounts exist, `Shutdown` leaves the receiver as it is. -/
def Env.quiet : Env where
  translateError := id
  InsecurePubPassphrase := [112, 117, 98, 108, 105, 99]
  errOf := fun _ => none
  scribble := fun _ _ _ b => b
  loadedWallet := fun _ => some 1
  newWallet := fun _ => .ok 1
  nextAccount := fun _ => (2, none)
  accountName := fun _ => ("default", none)
  accounts := fun _ => .ok
    { Accounts := [⟨0, "default", 1000, 3, 1, 0⟩, ⟨1, "savings", 50, 0, 0, 0⟩,
        ⟨2, "trading", 0, 0, 0, 0⟩]
      CurrentBlockHash := [0, 1]
      CurrentBlockHeight := 10 }
  balances := fun _ => .ok ⟨1000, 800, 0, 0, 0, 0, 200⟩
  decodeSeed := fun _ => .ok [1, 2, 3]
  Shutdown := fun _ lw => lw

/-- As `Env.quiet`, but the engine rejects every passphrase and overwrites the buffer
it was given with the byte 7. -/
def Env.badPass : Env :=
  { Env.quiet with
    errOf := fun hist =>
      match hist.getLast? with
      | some (.Unlock _ _ _) => some (.external 1)
      | _ => none
    scribble := fun _ _ _ _ => 7 }

/-- As `Env.quiet`, but the engine knows no name for any account number. -/
def Env.noAccount : Env :=
  { Env.quiet with accountName := fun _ => ("", some (.external 2)) }

/-- As `Env.quiet`, but the balance query made third in the history (the second one
after `Accounts()` in an empty trace) fails. -/
def Env.secondFails : Env :=
  { Env.quiet with
    balances := fun hist =>
      if hist.length = 3 then .error (.external 3) else .ok ⟨1000, 800, 0, 0, 0, 0, 200⟩ }

/-- As `Env.quiet`, but the loader reports that no wallet is loaded. -/
def Env.unloaded : Env :=
  { Env.quiet with loadedWallet := fun _ => none }

/-- A wallet record with an engine handle attached. -/
def LibWallet.sample : LibWallet :=
  { WalletID := 1, WalletName := "alice", WalletDataDir := "/data/1", DefaultAccount := 0,
    SpendingPassphraseType := 0, DiscoveredAccounts := true, wallet := some 1,
    walletLoader := 1 }

/-- A second wallet record, never opened. -/
def LibWallet.other : LibWallet :=
  { WalletID := 2, WalletName := "bob", WalletDataDir := "/data/2", DefaultAccount := 0,
    SpendingPassphraseType := 0, DiscoveredAccounts := false, wallet := none,
    walletLoader := 2 }

/-- A world whose memory holds the passphrase buffers `[1, 2, 3]` (address 0) and
`[4, 5]` (address 1) and whose store holds the two sample records. -/
def World.sample : World :=
  { trace := [], mem := [[1, 2, 3], [4, 5]], db := [LibWallet.sample, LibWallet.other] }

/-- A registry of the two sample wallets with no sync in progress. -/
def MultiWallet.sample : MultiWallet :=
  { wallets := fun i => if i = 1 then some LibWallet.sample
      else if i = 2 then some LibWallet.other else none
    activeSyncData := none }

/-- The same registry while a sync is in progress. -/
def MultiWallet.syncing : MultiWallet :=
  { MultiWallet.sample with activeSyncData := some 0 }

/-! ## Facts about memory and the trace -/

theorem getD_set_nil (mem : List (List Nat)) (a b : Nat) (v : List Nat) :
    (mem.set a v).getD b [] = if a = b ∧ a < mem.length then v else mem.getD b [] := by
  simp only [List.getD_eq_getElem?_getD, List.getElem?_set]
  by_cases hab : a = b
  · subst hab
    by_cases hlt : a < mem.length
    · simp [hlt]
    · simp [hlt, List.getElem?_eq_none (Nat.le_of_not_lt hlt)]
  · simp [hab]

@[simp] theorem World.trace_call (s : World) (ev : Event) :
    (s.call ev).trace = s.trace ++ [ev] := rfl

@[simp] theorem World.mem_call (s : World) (ev : Event) : (s.call ev).mem = s.mem := rfl

@[simp] theorem World.db_call (s : World) (ev : Event) : (s.call ev).db = s.db := rfl

@[simp] theorem World.buf_call (s : World) (ev : Event) (a : Addr) :
    (s.call ev).buf a = s.buf a := rfl

@[simp] theorem World.trace_written (env : Env) (s : World) (a : Addr) :
    (s.written env a).trace = s.trace := rfl

@[simp] theorem World.db_written (env : Env) (s : World) (a : Addr) :
    (s.written env a).db = s.db := rfl

@[simp] theorem World.trace_zeroed (s : World) (a : Addr) : (s.zeroed a).trace = s.trace := rfl

@[simp] theorem World.db_zeroed (s : World) (a : Addr) : (s.zeroed a).db = s.db := rfl

/-- A callee writing into a buffer changes no length. -/
@[simp] theorem World.length_buf_written (env : Env) (s : World) (a b : Addr) :
    ((s.written env a).buf b).length = (s.buf b).length := by
  simp only [World.written, World.buf, getD_set_nil]
  split
  · rename_i h
    obtain ⟨rfl, _⟩ := h
    simp [scribbled]
  · rfl

/-- After the zeroing loop the buffer has its length and holds zeroes only. -/
@[simp] theorem World.buf_zeroed_self (s : World) (a : Addr) :
    (s.zeroed a).buf a = List.replicate (s.buf a).length 0 := by
  simp only [World.zeroed, World.buf, getD_set_nil]
  by_cases hlt : a < s.mem.length
  · simp [hlt, List.map_const']
  · simp [hlt, List.getD_eq_getElem?_getD, List.getElem?_eq_none (Nat.le_of_not_lt hlt)]

theorem World.buf_zeroed_of_ne (s : World) (a b : Addr) (h : a ≠ b) :
    (s.zeroed a).buf b = s.buf b := by
  simp [World.zeroed, World.buf, getD_set_nil, h]

/-- Zeroing one buffer keeps another (or the same) buffer zeroed. -/
theorem World.buf_zeroed_of_zero (s : World) (a b : Addr) (n : Nat)
    (h : s.buf b = List.replicate n 0) : (s.zeroed a).buf b = List.replicate n 0 := by
  by_cases hab : a = b
  · subst hab
    simp [h]
  · rw [World.buf_zeroed_of_ne s a b hab, h]

@[simp] theorem World.length_buf_zeroed (s : World) (a b : Addr) :
    ((s.zeroed a).buf b).length = (s.buf b).length := by
  by_cases hab : a = b
  · subst hab
    simp
  · rw [World.buf_zeroed_of_ne s a b hab]

/-! ## Wallet deletion -/

/-- Claim C3. `LibWallet.DeleteWallet` fails before any irreversible action.  Whatever the
collaborators do, the passphrase buffer ends all-zero (same length).  If the loader has
no wallet the result is `ErrWalletNotLoaded` and the only call made is the query of the
loader; if the engine rejects the passphrase the result is the translated error and the
only calls are that query and the unlock; otherwise the calls are, in this order,
query, unlock, lock, shutdown, removal of the data directory, and the result is the
result of the removal.  So the shutdown signal and the removal happen only after a
successful unlock and the re-lock. -/
theorem LibWallet.DeleteWallet_fails_before_removal (env : Env) (lw : LibWallet) (p : Addr)
    (s : World) :
    ((lw.DeleteWallet env p s).2.2.buf p = List.replicate (s.buf p).length 0) ∧
    (env.loadedWallet (s.trace ++ [.LoadedWallet lw.walletLoader]) = none →
      (lw.DeleteWallet env p s).1 = some .ErrWalletNotLoaded ∧
      (lw.DeleteWallet env p s).2.1 = lw ∧
      (lw.DeleteWallet env p s).2.2.trace = s.trace ++ [.LoadedWallet lw.walletLoader]) ∧
    (∀ w e, env.loadedWallet (s.trace ++ [.LoadedWallet lw.walletLoader]) = some w →
      env.errOf (s.trace ++ [.LoadedWallet lw.walletLoader, .Unlock w (s.buf p) false])
        = some e →
      (lw.DeleteWallet env p s).1 = some (env.translateError e) ∧
      (lw.DeleteWallet env p s).2.1 = lw ∧
      (lw.DeleteWallet env p s).2.2.trace
        = s.trace ++ [.LoadedWallet lw.walletLoader, .Unlock w (s.buf p) false]) ∧
    (∀ w, env.loadedWallet (s.trace ++ [.LoadedWallet lw.walletLoader]) = some w →
      env.errOf (s.trace ++ [.LoadedWallet lw.walletLoader, .Unlock w (s.buf p) false])
        = none →
      (lw.DeleteWallet env p s).2.2.trace
        = s.trace ++ [.LoadedWallet lw.walletLoader, .Unlock w (s.buf p) false, .Lock w,
            .Shutdown lw.WalletID, .RemoveAll (lw.DeleteWallet env p s).2.1.WalletDataDir] ∧
      (lw.DeleteWallet env p s).1 = env.errOf (lw.DeleteWallet env p s).2.2.trace) := by
  refine ⟨?_, ?_, ?_, ?_⟩
  · cases hl : env.loadedWallet (s.trace ++ [.LoadedWallet lw.walletLoader]) with
    | none => simp [LibWallet.DeleteWallet, Loader.LoadedWallet, hl]
    | some w =>
      cases he : env.errOf
          (s.trace ++ [.LoadedWallet lw.walletLoader, .Unlock w (s.buf p) false]) <;>
        simp [LibWallet.DeleteWallet, Loader.LoadedWallet, Engine.Unlock, Engine.Lock,
          LibWallet.Shutdown, os_RemoveAll, hl, he]
  · intro h
    simp [LibWallet.DeleteWallet, Loader.LoadedWallet, h]
  · intro w e h1 h2
    simp [LibWallet.DeleteWallet, Loader.LoadedWallet, Engine.Unlock, h1, h2]
  · intro w h1 h2
    simp [LibWallet.DeleteWallet, Loader.LoadedWallet, Engine.Unlock, Engine.Lock,
      LibWallet.Shutdown, os_RemoveAll, h1, h2]

/-- Instance of C3: the engine rejects the passphrase `[1, 2, 3]`; the translated error
comes back, only the loader query and the unlock were made, the buffer is zeroed. -/
theorem LibWallet.DeleteWallet_fails_before_removal_witness :
    Env.badPass.loadedWallet (World.sample.trace ++ [.LoadedWallet 1]) = some 1 ∧
    Env.badPass.errOf (World.sample.trace ++ [.LoadedWallet 1, .Unlock 1 [1, 2, 3] false])
      = some (.external 1) ∧
    (LibWallet.sample.DeleteWallet Env.badPass 0 World.sample).1 = some (.external 1) ∧
    (LibWallet.sample.DeleteWallet Env.badPass 0 World.sample).2.2.trace
      = [.LoadedWallet 1, .Unlock 1 [1, 2, 3] false] ∧
    (LibWallet.sample.DeleteWallet Env.badPass 0 World.sample).2.2.buf 0 = [0, 0, 0] :=
  ⟨rfl, rfl,
    ((LibWallet.DeleteWallet_fails_before_removal Env.badPass LibWallet.sample 0
      World.sample).2.2.1 1 (.external 1) rfl rfl).1,
    ((LibWallet.DeleteWallet_fails_before_removal Env.badPass LibWallet.sample 0
      World.sample).2.2.1 1 (.external 1) rfl rfl).2.2,
    (LibWallet.DeleteWallet_fails_before_removal Env.badPass LibWallet.sample 0
      World.sample).1⟩

/-- Claim C4. While a sync is in progress (`activeSyncData` is not nil) the registry
`DeleteWallet` returns `ErrSyncAlreadyInProgress` and changes nothing, for every id and
passphrase: the registry is the same, no collaborator is called (no unlock, shutdown,
directory removal or `DeleteStruct`), memory and store are the same. -/
theorem MultiWallet.DeleteWallet_during_sync (env : Env) (mw : MultiWallet) (walletID : Int)
    (privPass : Addr) (s : World) (hsync : mw.activeSyncData ≠ none) :
    mw.DeleteWallet env walletID privPass s = (some .ErrSyncAlreadyInProgress, mw, s) := by
  unfold MultiWallet.DeleteWallet
  cases h : mw.activeSyncData with
  | none => exact absurd h hsync
  | some d => rfl

/-- Instance of C4 on the sample registry while syncing. -/
theorem MultiWallet.DeleteWallet_during_sync_witness :
    MultiWallet.syncing.activeSyncData ≠ none ∧
    MultiWallet.syncing.DeleteWallet Env.quiet 1 0 World.sample
      = (some .ErrSyncAlreadyInProgress, MultiWallet.syncing, World.sample) :=
  ⟨by decide,
    MultiWallet.DeleteWallet_during_sync Env.quiet MultiWallet.syncing 1 0 World.sample
      (by decide)⟩

/-! ## Renaming -/

theorem HasPrefix_append (pre rest : String) : HasPrefix (pre ++ rest) pre = true := by
  simp [HasPrefix, List.isPrefixOf_iff_prefix]

/-- Claim C5. A new name that starts with `wallet-` is refused with the reserved-prefix
error whatever the registry, the id and the store: the registry and the world come
back unchanged, so no record is renamed and the store is neither queried nor saved
to. -/
theorem MultiWallet.RenameWallet_reserved (env : Env) (mw : MultiWallet) (walletID : Int)
    (rest : String) (s : World) :
    mw.RenameWallet env walletID ("wallet-" ++ rest) s
      = (some (.text "\x27wallet-\x27 is a reserved prefix"), mw, s) := by
  simp [MultiWallet.RenameWallet, HasPrefix_append]

/-- A lookup adds its call to the trace and changes nothing else. -/
theorem DB.One_snd (env : Env) (fieldName value : String) (s : World) :
    (DB.One env fieldName value s).2 = s.call (.One fieldName value) := by
  unfold DB.One
  simp only []
  split
  · rfl
  · split
    · rfl
    · split <;> rfl

/-- Claim C6. For a known id and a new name without the reserved prefix, when the lookup
by `WalletName` finds a record of another wallet, `RenameWallet` returns `ErrExist`;
the registry is unchanged (the target keeps its name) and the only call made is the
lookup, so nothing is saved and the store is as before. -/
theorem MultiWallet.RenameWallet_duplicate (env : Env) (mw : MultiWallet) (walletID : Int)
    (newName : String) (s : World) (w r : LibWallet)
    (hknown : mw.wallets walletID = some w)
    (hname : HasPrefix newName "wallet-" = false)
    (hfound : (DB.One env "WalletName" newName s).1 = .ok r)
    (_hother : r.WalletID ≠ walletID) :
    mw.RenameWallet env walletID newName s
        = (some .ErrExist, mw, s.call (.One "WalletName" newName)) ∧
    (mw.RenameWallet env walletID newName s).2.1.wallets walletID = some w ∧
    (mw.RenameWallet env walletID newName s).2.2.db = s.db := by
  have hs := DB.One_snd env "WalletName" newName s
  have hrun : mw.RenameWallet env walletID newName s
      = (some .ErrExist, mw, s.call (.One "WalletName" newName)) := by
    unfold MultiWallet.RenameWallet
    rw [if_neg (by simp [hname]), hknown]
    simp only []
    generalize hq : DB.One env "WalletName" newName s = q at hfound hs
    obtain ⟨q1, q2⟩ := q
    simp only at hfound hs
    subst hfound hs
    rfl
  rw [hrun]
  exact ⟨rfl, hknown, rfl⟩

/-- Instance of C6: renaming wallet 1 to `bob`, the name of wallet 2. -/
theorem MultiWallet.RenameWallet_duplicate_witness :
    MultiWallet.sample.RenameWallet Env.quiet 1 "bob" World.sample
        = (some .ErrExist, MultiWallet.sample, World.sample.call (.One "WalletName" "bob")) ∧
    (MultiWallet.sample.RenameWallet Env.quiet 1 "bob" World.sample).2.1.wallets 1
        = some LibWallet.sample ∧
    (MultiWallet.sample.RenameWallet Env.quiet 1 "bob" World.sample).2.2.db
        = World.sample.db :=
  MultiWallet.RenameWallet_duplicate Env.quiet MultiWallet.sample 1 "bob" World.sample
    LibWallet.sample LibWallet.other (by decide) (by decide) (by rfl) (by decide)

/-- Counterexample to C7: wallet 1 is known, its record is stored under its current
name `alice`, the name has no reserved prefix and the store never fails, yet renaming
wallet 1 to `alice` returns `ErrExist` instead of no error: the lookup finds the
wallet\x27s own record. -/
theorem MultiWallet.RenameWallet_current_name_refused :
    MultiWallet.sample.wallets 1 = some LibWallet.sample ∧
    LibWallet.sample ∈ World.sample.db ∧
    LibWallet.sample.WalletID = 1 ∧
    HasPrefix LibWallet.sample.WalletName "wallet-" = false ∧
    (MultiWallet.sample.RenameWallet Env.quiet 1 LibWallet.sample.WalletName World.sample).1
      = some .ErrExist ∧
    (MultiWallet.sample.RenameWallet Env.quiet 1 LibWallet.sample.WalletName World.sample).1
      ≠ none := by
  refine ⟨by decide, by decide, by decide, by decide, by rfl, by decide⟩

/-- Claim C7, as the code has it. Renaming a known wallet to its own current name (a
name without the reserved prefix) is refused whenever the lookup by `WalletName` finds
a record under that name, the wallet\x27s own record included: `RenameWallet` returns
`ErrExist`, the wallet keeps its name and nothing is saved (the lookup is the only
call).  The lookup result is never compared with `walletID`. -/
theorem MultiWallet.RenameWallet_current_name (env : Env) (mw : MultiWallet) (walletID : Int)
    (s : World) (w r : LibWallet)
    (hknown : mw.wallets walletID = some w)
    (hname : HasPrefix w.WalletName "wallet-" = false)
    (hfound : (DB.One env "WalletName" w.WalletName s).1 = .ok r)
    (_hown : r.WalletID = walletID) :
    mw.RenameWallet env walletID w.WalletName s
        = (some .ErrExist, mw, s.call (.One "WalletName" w.WalletName)) ∧
    (mw.RenameWallet env walletID w.WalletName s).2.1.wallets walletID = some w ∧
    (mw.RenameWallet env walletID w.WalletName s).2.2.db = s.db := by
  have hs := DB.One_snd env "WalletName" w.WalletName s
  have hrun : mw.RenameWallet env walletID w.WalletName s
      = (some .ErrExist, mw, s.call (.One "WalletName" w.WalletName)) := by
    unfold MultiWallet.RenameWallet
    rw [if_neg (by simp [hname]), hknown]
    simp only []
    generalize DB.One env "WalletName" w.WalletName s = q at hfound hs
    obtain ⟨q1, q2⟩ := q
    simp only at hfound hs
    subst hfound hs
    rfl
  rw [hrun]
  exact ⟨rfl, hknown, rfl⟩

/-- Instance of the amended C7 on the sample registry: the lookup of `alice` finds the
record of wallet 1 itself, and renaming wallet 1 to `alice` is refused. -/
theorem MultiWallet.RenameWallet_current_name_witness :
    (DB.One Env.quiet "WalletName" LibWallet.sample.WalletName World.sample).1
        = .ok LibWallet.sample ∧
    LibWallet.sample.WalletID = 1 ∧
    MultiWallet.sample.RenameWallet Env.quiet 1 LibWallet.sample.WalletName World.sample
        = (some .ErrExist, MultiWallet.sample,
            World.sample.call (.One "WalletName" LibWallet.sample.WalletName)) ∧
    (MultiWallet.sample.RenameWallet Env.quiet 1 LibWallet.sample.WalletName
        World.sample).2.1.wallets 1 = some LibWallet.sample ∧
    (MultiWallet.sample.RenameWallet Env.quiet 1 LibWallet.sample.WalletName
        World.sample).2.2.db = World.sample.db :=
  ⟨by rfl, by decide,
    MultiWallet.RenameWallet_current_name Env.quiet MultiWallet.sample 1 World.sample
      LibWallet.sample LibWallet.sample (by decide) (by decide) (by rfl) (by decide)⟩

/-! ## Default account -/

/-- Claim C8. `SetDefaultAccount` on every registry, id and account number.
An unknown id gives `ErrNotExist` and changes nothing.  For a known id whose engine
cannot resolve a name for the account, the result is the translated engine error, the
registry is unchanged (the record keeps its `DefaultAccount`) and the name lookup is
the only call, so `Save` is not called.  `DefaultAccount` is written only when the
lookup succeeded: then the record stored under the id is the old one with the new
number, and `Save` of that record is the call that follows the lookup. -/
theorem MultiWallet.SetDefaultAccount_checks_first (env : Env) (mw : MultiWallet)
    (walletID : Int) (accountNumber : Int) (s : World) :
    (mw.wallets walletID = none →
      mw.SetDefaultAccount env walletID accountNumber s = (.ret (some .ErrNotExist), mw, s)) ∧
    (∀ w h name e, mw.wallets walletID = some w → w.wallet = some h →
      env.accountName (s.trace ++ [.AccountName h (uint32 accountNumber)]) = (name, some e) →
      mw.SetDefaultAccount env walletID accountNumber s
        = (.ret (some (env.translateError e)), mw,
            s.call (.AccountName h (uint32 accountNumber)))) ∧
    (∀ w h name, mw.wallets walletID = some w → w.wallet = some h →
      env.accountName (s.trace ++ [.AccountName h (uint32 accountNumber)]) = (name, none) →
      (mw.SetDefaultAccount env walletID accountNumber s).2.1
        = mw.store walletID { w with DefaultAccount := accountNumber } ∧
      (mw.SetDefaultAccount env walletID accountNumber s).2.2.trace
        = s.trace ++ [.AccountName h (uint32 accountNumber),
            .Save { w with DefaultAccount := accountNumber }]) ∧
    (∀ w, mw.wallets walletID = some w →
      (mw.SetDefaultAccount env walletID accountNumber s).2.1 ≠ mw →
      ∃ h name, w.wallet = some h ∧
        env.accountName (s.trace ++ [.AccountName h (uint32 accountNumber)])
          = (name, none)) := by
  refine ⟨?_, ?_, ?_, ?_⟩
  · intro h
    simp [MultiWallet.SetDefaultAccount, h]
  · intro w h name e hw hh hn
    simp [MultiWallet.SetDefaultAccount, LibWallet.AccountNameRaw, Engine.AccountName, hw, hh,
      hn]
  · intro w h name hw hh hn
    rcases w with ⟨wid, wname, wdir, wacc, wtype, wdisc, wh, wloader⟩
    simp only at hh
    subst hh
    cases hsave : env.errOf (s.trace ++ [.AccountName h (uint32 accountNumber),
        .Save ⟨wid, wname, wdir, accountNumber, wtype, wdisc, some h, wloader⟩]) <;>
      simp [MultiWallet.SetDefaultAccount, LibWallet.AccountNameRaw, Engine.AccountName,
        DB.Save, hw, hn, hsave]
  · intro w hw hne
    cases hh : w.wallet with
    | none =>
      exact absurd (by simp [MultiWallet.SetDefaultAccount, LibWallet.AccountNameRaw, hw, hh])
        hne
    | some h =>
      cases hn : env.accountName (s.trace ++ [.AccountName h (uint32 accountNumber)]) with
      | mk name oe =>
        cases oe with
        | none => exact ⟨h, name, rfl, hn⟩
        | some e =>
          exact absurd (by simp [MultiWallet.SetDefaultAccount, LibWallet.AccountNameRaw,
            Engine.AccountName, hw, hh, hn]) hne

/-- Instance of C8: wallet 1, account number 5, an engine that resolves no name. -/
theorem MultiWallet.SetDefaultAccount_checks_first_witness :
    MultiWallet.sample.wallets 1 = some LibWallet.sample ∧
    MultiWallet.sample.SetDefaultAccount Env.noAccount 1 5 World.sample
      = (.ret (some (.external 2)), MultiWallet.sample,
          World.sample.call (.AccountName 1 5)) :=
  ⟨by decide,
    (MultiWallet.SetDefaultAccount_checks_first Env.noAccount MultiWallet.sample 1 5
      World.sample).2.1 LibWallet.sample 1 "" (.external 2) (by decide) rfl rfl⟩

/-! ## The passphrase-gated guard -/

/-- Claim C1. `NextAccountRaw` cleans up on every way out, for every buffer, name, record
and collaborator behaviour.  (1) The passphrase buffer ends all-zero, with its length.
(2) The calls it adds to the trace begin with the creation of the relock channel, finish
with a send on it, and hold no other send in between: exactly one value is sent (the
engine gets the receiving side only and cannot send).  (3) If the engine rejects the passphrase the result is `ErrInvalidPassphrase`
with account number 0 and the calls are channel creation, unlock, send: `NextAccount`
of the engine is not called.  (4) If the engine accepts it, the calls are channel
creation, unlock, context, `NextAccount`, send, and the result, error or not, is what
the engine returned for `NextAccount`. -/
theorem LibWallet.NextAccountRaw_cleanup (env : Env) (lw : LibWallet) (accountName : String)
    (p : Addr) (s : World) :
    ((lw.NextAccountRaw env accountName p s).2.buf p = List.replicate (s.buf p).length 0) ∧
    (∃ mid, (lw.NextAccountRaw env accountName p s).2.trace
        = s.trace ++ [.chanMake] ++ mid ++ [.chanSend] ∧
      Event.chanSend ∉ mid ∧ Event.chanMake ∉ mid) ∧
    (∀ w e, lw.wallet = some w →
      env.errOf (s.trace ++ [.chanMake, .Unlock w (s.buf p) true]) = some e →
      (lw.NextAccountRaw env accountName p s).1 = .ret (0, some .ErrInvalidPassphrase) ∧
      (lw.NextAccountRaw env accountName p s).2.trace
        = s.trace ++ [.chanMake, .Unlock w (s.buf p) true, .chanSend]) ∧
    (∀ w, lw.wallet = some w →
      env.errOf (s.trace ++ [.chanMake, .Unlock w (s.buf p) true]) = none →
      (lw.NextAccountRaw env accountName p s).1
        = .ret (env.nextAccount (s.trace ++ [.chanMake, .Unlock w (s.buf p) true,
            .contextWithShutdownCancel lw.WalletID, .NextAccount w accountName])) ∧
      (lw.NextAccountRaw env accountName p s).2.trace
        = s.trace ++ [.chanMake, .Unlock w (s.buf p) true,
            .contextWithShutdownCancel lw.WalletID, .NextAccount w accountName,
            .chanSend]) := by
  have h3 : ∀ w e, lw.wallet = some w →
      env.errOf (s.trace ++ [.chanMake, .Unlock w (s.buf p) true]) = some e →
      (lw.NextAccountRaw env accountName p s).1 = .ret (0, some .ErrInvalidPassphrase) ∧
      (lw.NextAccountRaw env accountName p s).2.trace
        = s.trace ++ [.chanMake, .Unlock w (s.buf p) true, .chanSend] := by
    intro w e hw he
    simp [LibWallet.NextAccountRaw, Engine.Unlock, hw, he]
  have h4 : ∀ w, lw.wallet = some w →
      env.errOf (s.trace ++ [.chanMake, .Unlock w (s.buf p) true]) = none →
      (lw.NextAccountRaw env accountName p s).1
        = .ret (env.nextAccount (s.trace ++ [.chanMake, .Unlock w (s.buf p) true,
            .contextWithShutdownCancel lw.WalletID, .NextAccount w accountName])) ∧
      (lw.NextAccountRaw env accountName p s).2.trace
        = s.trace ++ [.chanMake, .Unlock w (s.buf p) true,
            .contextWithShutdownCancel lw.WalletID, .NextAccount w accountName,
            .chanSend] := by
    intro w hw he
    simp [LibWallet.NextAccountRaw, Engine.Unlock, Engine.NextAccount, hw, he]
  refine ⟨?_, ?_, h3, h4⟩
  · cases hw : lw.wallet with
    | none => simp [LibWallet.NextAccountRaw, hw]
    | some w =>
      cases he : env.errOf (s.trace ++ [.chanMake, .Unlock w (s.buf p) true]) <;>
        simp [LibWallet.NextAccountRaw, Engine.Unlock, Engine.NextAccount, hw, he]
  · cases hw : lw.wallet with
    | none => exact ⟨[], by simp [LibWallet.NextAccountRaw, hw], by simp, by simp⟩
    | some w =>
      cases he : env.errOf (s.trace ++ [.chanMake, .Unlock w (s.buf p) true]) with
      | some e =>
        exact ⟨[.Unlock w (s.buf p) true], by rw [(h3 w e hw he).2]; simp, by simp, by simp⟩
      | none =>
        exact ⟨[.Unlock w (s.buf p) true, .contextWithShutdownCancel lw.WalletID,
          .NextAccount w accountName], by rw [(h4 w hw he).2]; simp, by simp, by simp⟩

/-- Instance of C1: the engine rejects the passphrase `[1, 2, 3]` and scribbles over the
buffer; the buffer still ends as `[0, 0, 0]`, one send happens and `NextAccount` is
not called. -/
theorem LibWallet.NextAccountRaw_cleanup_witness :
    LibWallet.sample.wallet = some 1 ∧
    Env.badPass.errOf (World.sample.trace ++ [.chanMake, .Unlock 1 [1, 2, 3] true])
      = some (.external 1) ∧
    (LibWallet.sample.NextAccountRaw Env.badPass "savings" 0 World.sample).2.buf 0
      = [0, 0, 0] ∧
    (LibWallet.sample.NextAccountRaw Env.badPass "savings" 0 World.sample).1
      = .ret (0, some .ErrInvalidPassphrase) ∧
    (LibWallet.sample.NextAccountRaw Env.badPass "savings" 0 World.sample).2.trace
      = [.chanMake, .Unlock 1 [1, 2, 3] true, .chanSend] :=
  ⟨rfl, rfl,
    (LibWallet.NextAccountRaw_cleanup Env.badPass LibWallet.sample "savings" 0
      World.sample).1,
    (LibWallet.NextAccountRaw_cleanup Env.badPass LibWallet.sample "savings" 0
      World.sample).2.2.1 1 (.external 1) rfl rfl⟩

/-! ## Passphrase buffers of unlock and passphrase change -/

/-- Claim C2, failing input. With a loader that reports no loaded wallet, `UnlockWallet`
returns its error before the zeroing function is deferred: the caller\x27s passphrase
buffer `[1, 2, 3]` still holds `[1, 2, 3]` after the call. -/
theorem LibWallet.UnlockWallet_not_loaded_keeps_passphrase :
    (LibWallet.sample.UnlockWallet Env.unloaded 0 World.sample).1
      = some (.text "wallet has not been loaded") ∧
    (LibWallet.sample.UnlockWallet Env.unloaded 0 World.sample).2.buf 0 = [1, 2, 3] ∧
    ¬ (LibWallet.sample.UnlockWallet Env.unloaded 0 World.sample).2.allZero 0 := by
  refine ⟨by rfl, by rfl, by decide⟩

/-- The early return of `UnlockWallet` never touches the buffer, whatever it holds. -/
theorem LibWallet.UnlockWallet_not_loaded (env : Env) (lw : LibWallet) (p : Addr) (s : World)
    (h : env.loadedWallet (s.trace ++ [.LoadedWallet lw.walletLoader]) = none) :
    lw.UnlockWallet env p s
      = (some (.text "wallet has not been loaded"), s.call (.LoadedWallet lw.walletLoader)) := by
  simp [LibWallet.UnlockWallet, Loader.LoadedWallet, h]

/-- When the loader has a wallet, `UnlockWallet` zeroes the buffer whether the engine
accepts the passphrase or not. -/
theorem LibWallet.UnlockWallet_loaded_zeroes (env : Env) (lw : LibWallet) (p : Addr)
    (s : World) (w : Handle)
    (h : env.loadedWallet (s.trace ++ [.LoadedWallet lw.walletLoader]) = some w) :
    (lw.UnlockWallet env p s).2.buf p = List.replicate (s.buf p).length 0 := by
  cases he : env.errOf
      (s.trace ++ [.LoadedWallet lw.walletLoader, .Unlock w (s.buf p) false]) <;>
    simp [LibWallet.UnlockWallet, Loader.LoadedWallet, Engine.Unlock, h, he]

/-- Go `ChangePrivatePassphrase` zeroes both buffers on every way out. -/
theorem LibWallet.ChangePrivatePassphrase_zeroes (env : Env) (lw : LibWallet)
    (oldPass newPass : Addr) (s : World) :
    (lw.ChangePrivatePassphrase env oldPass newPass s).2.buf oldPass
        = List.replicate (s.buf oldPass).length 0 ∧
    (lw.ChangePrivatePassphrase env oldPass newPass s).2.buf newPass
        = List.replicate (s.buf newPass).length 0 := by
  cases hw : lw.wallet with
  | none =>
    simp only [LibWallet.ChangePrivatePassphrase, hw]
    exact ⟨World.buf_zeroed_of_zero _ _ _ _ (by simp), by simp⟩
  | some w =>
    simp only [LibWallet.ChangePrivatePassphrase, hw, Engine.ChangePrivatePassphrase]
    split <;> rename_i heq <;> simp only [Prod.mk.injEq] at heq <;> obtain ⟨_, rfl⟩ := heq <;>
      exact ⟨World.buf_zeroed_of_zero _ _ _ _ (by simp), by simp⟩

theorem Slice.length_after_written (env : Env) (s : World) (sl : Slice) (b : Addr) :
    ((Slice.written env s sl).buf b).length = (s.buf b).length := by
  cases sl <;> simp [Slice.written]

@[simp] theorem Slice.trace_after_written (env : Env) (s : World) (sl : Slice) :
    (Slice.written env s sl).trace = s.trace := by
  cases sl <;> simp [Slice.written]

theorem Slice.length_after_zeroed (s : World) (sl : Slice) (b : Addr) :
    ((Slice.zeroed s sl).buf b).length = (s.buf b).length := by
  cases sl <;> simp [Slice.zeroed]

theorem Slice.zero_after_zeroed (s : World) (sl : Slice) (b : Addr) (n : Nat)
    (h : s.buf b = List.replicate n 0) : (Slice.zeroed s sl).buf b = List.replicate n 0 := by
  cases sl with
  | caller a => exact World.buf_zeroed_of_zero s a b n h
  | fresh bs => exact h

/-- The deferred function of `ChangePublicPassphrase`, run in a world `X` whose buffers
have the lengths they had at the call: both caller buffers end zeroed.  An empty one
was replaced by a fresh copy of the default and is itself left alone, being empty. -/
theorem zeroed_locals (fresh : List Nat) (s X : World) (oldPass newPass : Addr)
    (hX : ∀ b, (X.buf b).length = (s.buf b).length) :
    (Slice.zeroed
        (Slice.zeroed X (if (s.buf oldPass).length = 0 then .fresh fresh else .caller oldPass))
        (if (s.buf newPass).length = 0 then .fresh fresh else .caller newPass)).buf oldPass
      = List.replicate (s.buf oldPass).length 0 ∧
    (Slice.zeroed
        (Slice.zeroed X (if (s.buf oldPass).length = 0 then .fresh fresh else .caller oldPass))
        (if (s.buf newPass).length = 0 then .fresh fresh else .caller newPass)).buf newPass
      = List.replicate (s.buf newPass).length 0 := by
  constructor
  · by_cases ho : (s.buf oldPass).length = 0
    · have hlen : ((Slice.zeroed
          (Slice.zeroed X
            (if (s.buf oldPass).length = 0 then .fresh fresh else .caller oldPass))
          (if (s.buf newPass).length = 0 then .fresh fresh else .caller newPass)).buf
            oldPass).length = 0 := by
        rw [Slice.length_after_zeroed, Slice.length_after_zeroed, hX, ho]
      rw [List.length_eq_zero.mp hlen, ho]
      rfl
    · apply Slice.zero_after_zeroed
      rw [if_neg ho]
      simp [Slice.zeroed, hX]
  · by_cases hn : (s.buf newPass).length = 0
    · have hlen : ((Slice.zeroed
          (Slice.zeroed X
            (if (s.buf oldPass).length = 0 then .fresh fresh else .caller oldPass))
          (if (s.buf newPass).length = 0 then .fresh fresh else .caller newPass)).buf
            newPass).length = 0 := by
        rw [Slice.length_after_zeroed, Slice.length_after_zeroed, hX, hn]
      rw [List.length_eq_zero.mp hlen, hn]
      rfl
    · rw [if_neg hn]
      show (World.zeroed _ newPass).buf newPass = _
      rw [World.buf_zeroed_self, Slice.length_after_zeroed, hX]

/-- Go `ChangePublicPassphrase` leaves both caller buffers zeroed on every way out. -/
theorem LibWallet.ChangePublicPassphrase_zeroes (env : Env) (lw : LibWallet)
    (oldPass newPass : Addr) (s : World) :
    (lw.ChangePublicPassphrase env oldPass newPass s).2.buf oldPass
        = List.replicate (s.buf oldPass).length 0 ∧
    (lw.ChangePublicPassphrase env oldPass newPass s).2.buf newPass
        = List.replicate (s.buf newPass).length 0 := by
  cases hw : lw.wallet with
  | none =>
    simp only [LibWallet.ChangePublicPassphrase, hw]
    exact zeroed_locals _ s s oldPass newPass (fun _ => rfl)
  | some w =>
    simp only [LibWallet.ChangePublicPassphrase, hw, Engine.ChangePublicPassphrase]
    split <;> rename_i heq <;> simp only [Prod.mk.injEq] at heq <;> obtain ⟨_, rfl⟩ := heq <;>
      exact zeroed_locals _ s _ oldPass newPass (fun b => by
        rw [Slice.length_after_written, Slice.length_after_written]; rfl)

/-! ## Account listing -/

/-- The loop of `GetAccountsRaw` either visits every remaining account, all balances
succeeding, and appends one summary per account in order, or stops at the first
account whose balance fails, returning that error. -/
theorem LibWallet.GetAccountsRaw.loop_spec (env : Env) (lw : LibWallet) (conf : Int)
    (w : Handle) (hw : lw.wallet = some w) :
    ∀ (rest : List AccountResult) (accounts : List Account) (s : World),
      (∃ done,
        (LibWallet.GetAccountsRaw.loop env lw conf rest accounts s).1
          = .ret (.ok (accounts ++ done)) ∧
        (LibWallet.GetAccountsRaw.loop env lw conf rest accounts s).2.trace
          = s.trace ++ rest.map (balanceQuery w conf) ∧
        done.length = rest.length ∧
        ∀ k a, rest[k]? = some a → ∃ b,
          env.balances (s.trace ++ (rest.take (k + 1)).map (balanceQuery w conf)) = .ok b ∧
          done[k]? = some (mkAccount a (mkBalance b))) ∨
      (∃ k a e, rest[k]? = some a ∧
        (∀ j, j < k → ∃ b,
          env.balances (s.trace ++ (rest.take (j + 1)).map (balanceQuery w conf)) = .ok b) ∧
        env.balances (s.trace ++ (rest.take (k + 1)).map (balanceQuery w conf)) = .error e ∧
        (LibWallet.GetAccountsRaw.loop env lw conf rest accounts s).1 = .ret (.error e) ∧
        (LibWallet.GetAccountsRaw.loop env lw conf rest accounts s).2.trace
          = s.trace ++ (rest.take (k + 1)).map (balanceQuery w conf)) := by
  intro rest
  induction rest with
  | nil =>
    intro accounts s
    left
    exact ⟨[], by simp [LibWallet.GetAccountsRaw.loop], by simp [LibWallet.GetAccountsRaw.loop],
      rfl, by simp⟩
  | cons a rest ih =>
    intro accounts s
    cases hb : env.balances
        (s.trace ++ [.CalculateAccountBalance w (uint32 (int32 a.AccountNumber)) conf]) with
    | error e =>
      right
      refine ⟨0, a, e, by simp, by simp, by simpa [balanceQuery] using hb, ?_, ?_⟩ <;>
        simp [LibWallet.GetAccountsRaw.loop, LibWallet.GetAccountBalance,
          Engine.CalculateAccountBalance, hw, hb, balanceQuery]
    | ok b =>
      have hstep : LibWallet.GetAccountsRaw.loop env lw conf (a :: rest) accounts s
          = LibWallet.GetAccountsRaw.loop env lw conf rest
              (accounts ++ [mkAccount a (mkBalance b)]) (s.call (balanceQuery w conf a)) := by
        simp [LibWallet.GetAccountsRaw.loop, LibWallet.GetAccountBalance,
          Engine.CalculateAccountBalance, hw, hb, balanceQuery]
      rw [hstep]
      rcases ih (accounts ++ [mkAccount a (mkBalance b)]) (s.call (balanceQuery w conf a)) with
        ⟨done, h1, h2, h3, h4⟩ | ⟨k, a1, e, hk, hprev, hfail, h1, h2⟩
      · left
        refine ⟨mkAccount a (mkBalance b) :: done, by simpa using h1, by simpa using h2,
          by simp [h3], ?_⟩
        intro k a1 hk
        cases k with
        | zero =>
          simp only [List.getElem?_cons_zero, Option.some.injEq] at hk
          subst hk
          exact ⟨b, by simpa [balanceQuery] using hb, by simp⟩
        | succ k =>
          obtain ⟨b1, hb1, hd⟩ := h4 k a1 (by simpa using hk)
          exact ⟨b1, by simpa using hb1, by simpa using hd⟩
      · right
        refine ⟨k + 1, a1, e, by simpa using hk, ?_, by simpa using hfail, h1,
          by simpa using h2⟩
        intro j hj
        cases j with
        | zero => exact ⟨b, by simpa [balanceQuery] using hb⟩
        | succ j =>
          obtain ⟨b1, hb1⟩ := hprev j (by omega)
          exact ⟨b1, by simpa using hb1⟩

/-- Claim C9. `GetAccountsRaw` never returns a partial result.  Given the account list
`resp` of the engine, exactly one of two things happens.  Either every balance query
succeeds: then all accounts are queried in the order of the engine, and the result is
an `Accounts` value whose `Count` is the number of engine accounts and whose `k`-th
summary is built from the `k`-th engine account and its balance.  Or some query fails:
then the result is no `Accounts` value but the error of the first failing query, and
the trace ends with that query, so later accounts are not queried. -/
theorem LibWallet.GetAccountsRaw_all_or_nothing (env : Env) (lw : LibWallet) (conf : Int)
    (s : World) (w : Handle) (resp : AccountsResult)
    (hw : lw.wallet = some w)
    (hresp : env.accounts (s.trace ++ [.Accounts w]) = .ok resp) :
    (∃ accs,
      (lw.GetAccountsRaw env conf s).1 = .ret (.ok accs) ∧
      accs.Count = resp.Accounts.length ∧
      accs.Acc.length = resp.Accounts.length ∧
      (lw.GetAccountsRaw env conf s).2.trace
        = s.trace ++ [.Accounts w] ++ resp.Accounts.map (balanceQuery w conf) ∧
      ∀ k a, resp.Accounts[k]? = some a → ∃ b,
        env.balances (s.trace ++ [.Accounts w]
          ++ (resp.Accounts.take (k + 1)).map (balanceQuery w conf)) = .ok b ∧
        accs.Acc[k]? = some (mkAccount a (mkBalance b))) ∨
    (∃ k a e, resp.Accounts[k]? = some a ∧
      (∀ j, j < k → ∃ b,
        env.balances (s.trace ++ [.Accounts w]
          ++ (resp.Accounts.take (j + 1)).map (balanceQuery w conf)) = .ok b) ∧
      env.balances (s.trace ++ [.Accounts w]
        ++ (resp.Accounts.take (k + 1)).map (balanceQuery w conf)) = .error e ∧
      (lw.GetAccountsRaw env conf s).1 = .ret (.error e) ∧
      (lw.GetAccountsRaw env conf s).2.trace
        = s.trace ++ [.Accounts w] ++ (resp.Accounts.take (k + 1)).map (balanceQuery w conf)) := by
  have hrun : lw.GetAccountsRaw env conf s
      = (match LibWallet.GetAccountsRaw.loop env lw conf resp.Accounts []
            (s.call (.Accounts w)) with
        | (.panic, s2) => (.panic, s2)
        | (.ret (.error err), s2) => (.ret (.error err), s2)
        | (.ret (.ok accounts), s2) =>
          (.ret (.ok {
            Count := resp.Accounts.length
            CurrentBlockHash := resp.CurrentBlockHash
            CurrentBlockHeight := resp.CurrentBlockHeight
            Acc := accounts }), s2)) := by
    simp [LibWallet.GetAccountsRaw, Engine.Accounts, hw, hresp]
  rw [hrun]
  rcases LibWallet.GetAccountsRaw.loop_spec env lw conf w hw resp.Accounts []
      (s.call (.Accounts w)) with
    ⟨done, h1, h2, h3, h4⟩ | ⟨k, a, e, hk, hprev, hfail, h1, h2⟩
  · left
    generalize LibWallet.GetAccountsRaw.loop env lw conf resp.Accounts []
      (s.call (.Accounts w)) = r at h1 h2
    obtain ⟨r1, r2⟩ := r
    simp only at h1 h2
    subst h1
    exact ⟨_, rfl, rfl, by simpa using h3, by simpa using h2, by simpa using h4⟩
  · right
    generalize LibWallet.GetAccountsRaw.loop env lw conf resp.Accounts []
      (s.call (.Accounts w)) = r at h1 h2
    obtain ⟨r1, r2⟩ := r
    simp only at h1 h2
    subst h1
    exact ⟨k, a, e, hk, by simpa using hprev, by simpa using hfail, rfl, by simpa using h2⟩

/-- Instance of C9: three engine accounts, the balance of the second fails.  The result
is that error, the third account is not queried, and no `Accounts` value is returned. -/
theorem LibWallet.GetAccountsRaw_all_or_nothing_witness :
    LibWallet.sample.wallet = some 1 ∧
    (∃ resp, Env.secondFails.accounts (World.sample.trace ++ [.Accounts 1]) = .ok resp ∧
      resp.Accounts.length = 3) ∧
    (LibWallet.sample.GetAccountsRaw Env.secondFails 0 World.sample).1
      = .ret (.error (.external 3)) ∧
    (LibWallet.sample.GetAccountsRaw Env.secondFails 0 World.sample).2.trace
      = [.Accounts 1, .CalculateAccountBalance 1 0 0, .CalculateAccountBalance 1 1 0] ∧
    ((∃ accs, (LibWallet.sample.GetAccountsRaw Env.secondFails 0 World.sample).1
        = .ret (.ok accs) ∧ accs.Count = 3) ∨
      (∃ e, (LibWallet.sample.GetAccountsRaw Env.secondFails 0 World.sample).1
        = .ret (.error e))) :=
  ⟨rfl, ⟨_, rfl, rfl⟩, by rfl, by rfl,
    (LibWallet.GetAccountsRaw_all_or_nothing Env.secondFails LibWallet.sample 0 World.sample 1
      { Accounts := [⟨0, "default", 1000, 3, 1, 0⟩, ⟨1, "savings", 50, 0, 0, 0⟩,
          ⟨2, "trading", 0, 0, 0, 0⟩]
        CurrentBlockHash := [0, 1]
        CurrentBlockHeight := 10 } rfl rfl).imp
      (fun h => h.elim fun accs ha => ⟨accs, ha.1, ha.2.1⟩)
      (fun h => h.elim fun _ h1 => h1.elim fun _ h2 => h2.elim fun e he => ⟨e, he.2.2.2.1⟩)⟩

/-! ## The engine handle -/

/-- Counterexample to C10: a record without handle is opened with `OpenWallet`, which
succeeds, and then closed with `CloseWallet`, which succeeds too (the loader unloads
the wallet); `WalletOpened()` is still true afterwards, because `CloseWallet` does not
clear the handle. -/
theorem LibWallet.WalletOpened_after_CloseWallet :
    LibWallet.other.WalletOpened = false ∧
    (LibWallet.other.OpenWallet Env.quiet 0 World.sample).1 = none ∧
    (LibWallet.other.OpenWallet Env.quiet 0 World.sample).2.1.WalletOpened = true ∧
    ((LibWallet.other.OpenWallet Env.quiet 0 World.sample).2.1.CloseWallet Env.quiet
      (LibWallet.other.OpenWallet Env.quiet 0 World.sample).2.2).1 = none ∧
    ((LibWallet.other.OpenWallet Env.quiet 0 World.sample).2.1.CloseWallet Env.quiet
      (LibWallet.other.OpenWallet Env.quiet 0 World.sample).2.2).2.1.WalletOpened = true := by
  refine ⟨by decide, by rfl, by rfl, by rfl, by rfl⟩

/-- Claim C10, as the code has it. `WalletOpened()` tells whether the handle field is set.
A record without handle reports false.  A successful `CreateWallet` or `OpenWallet`
sets the handle, so `WalletOpened()` is true afterwards; a failed one leaves the record
as it was.  `CloseWallet` never changes the record, whether the loader unloads or
not, so `WalletOpened()` keeps its value.  `DeleteWallet` assigns no handle itself:
on its two failure returns the record is unchanged, and after unlock and re-lock the
record is what `Shutdown` left. -/
theorem LibWallet.WalletOpened_lifecycle (env : Env) (lw : LibWallet) (s : World) :
    (lw.wallet = none → lw.WalletOpened = false) ∧
    (∀ passphrase seedMnemonic,
      ((lw.CreateWallet env passphrase seedMnemonic s).1 = none →
        (lw.CreateWallet env passphrase seedMnemonic s).2.1.WalletOpened = true) ∧
      ((lw.CreateWallet env passphrase seedMnemonic s).1 ≠ none →
        (lw.CreateWallet env passphrase seedMnemonic s).2.1 = lw)) ∧
    (∀ pubPass,
      ((lw.OpenWallet env pubPass s).1 = none →
        (lw.OpenWallet env pubPass s).2.1.WalletOpened = true) ∧
      ((lw.OpenWallet env pubPass s).1 ≠ none → (lw.OpenWallet env pubPass s).2.1 = lw)) ∧
    ((lw.CloseWallet env s).2.1 = lw ∧
      (lw.CloseWallet env s).2.1.WalletOpened = lw.WalletOpened) ∧
    (∀ p,
      (env.loadedWallet (s.trace ++ [.LoadedWallet lw.walletLoader]) = none →
        (lw.DeleteWallet env p s).2.1 = lw) ∧
      (∀ w e, env.loadedWallet (s.trace ++ [.LoadedWallet lw.walletLoader]) = some w →
        env.errOf (s.trace ++ [.LoadedWallet lw.walletLoader, .Unlock w (s.buf p) false])
          = some e →
        (lw.DeleteWallet env p s).2.1 = lw) ∧
      (∀ w, env.loadedWallet (s.trace ++ [.LoadedWallet lw.walletLoader]) = some w →
        env.errOf (s.trace ++ [.LoadedWallet lw.walletLoader, .Unlock w (s.buf p) false])
          = none →
        (lw.DeleteWallet env p s).2.1
          = env.Shutdown (s.trace ++ [.LoadedWallet lw.walletLoader,
              .Unlock w (s.buf p) false, .Lock w, .Shutdown lw.WalletID]) lw)) := by
  refine ⟨?_, ?_, ?_, ⟨rfl, rfl⟩, ?_⟩
  · intro h
    simp [LibWallet.WalletOpened, h]
  · intro passphrase seedMnemonic
    unfold LibWallet.CreateWallet
    by_cases hseed : seedMnemonic.length = 0
    · simp [hseed]
    · rw [if_neg hseed]
      simp only []
      cases env.decodeSeed (s.call (.DecodeUserInput seedMnemonic)).trace with
      | error err => simp
      | ok seed =>
        simp only [Loader.CreateNewWallet]
        cases env.newWallet (World.call (s.call (.DecodeUserInput seedMnemonic))
            (.CreateNewWallet lw.walletLoader env.InsecurePubPassphrase passphrase seed)).trace with
        | error err => simp
        | ok w => simp [LibWallet.WalletOpened]
  · intro pubPass
    unfold LibWallet.OpenWallet
    simp only [Loader.OpenExistingWallet]
    cases env.newWallet (World.written env
        (s.call (.OpenExistingWallet lw.walletLoader (s.buf pubPass))) pubPass).trace with
    | error err => simp
    | ok w => simp [LibWallet.WalletOpened]
  · intro p
    refine ⟨?_, ?_, ?_⟩
    · intro h
      simp [LibWallet.DeleteWallet, Loader.LoadedWallet, h]
    · intro w e h1 h2
      simp [LibWallet.DeleteWallet, Loader.LoadedWallet, Engine.Unlock, h1, h2]
    · intro w h1 h2
      simp [LibWallet.DeleteWallet, Loader.LoadedWallet, Engine.Unlock, Engine.Lock,
        LibWallet.Shutdown, os_RemoveAll, h1, h2]

/-- Instance of the amended C10: opening the never-opened sample record succeeds and
attaches the handle; closing it leaves the handle attached. -/
theorem LibWallet.WalletOpened_lifecycle_witness :
    LibWallet.other.wallet = none ∧
    LibWallet.other.WalletOpened = false ∧
    (LibWallet.other.OpenWallet Env.quiet 0 World.sample).1 = none ∧
    (LibWallet.other.OpenWallet Env.quiet 0 World.sample).2.1.WalletOpened = true ∧
    (LibWallet.sample.CloseWallet Env.quiet World.sample).2.1.WalletOpened = true :=
  ⟨rfl,
    (LibWallet.WalletOpened_lifecycle Env.quiet LibWallet.other World.sample).1 rfl,
    rfl,
    ((LibWallet.WalletOpened_lifecycle Env.quiet LibWallet.other World.sample).2.2.1 0).1 rfl,
    (LibWallet.WalletOpened_lifecycle Env.quiet LibWallet.sample World.sample).2.2.2.1.2⟩

end Dcrlibwallet
